import Mathlib

/-!
Shallow embedding of the Self-Healing Coding Assistant extension
(src/extension.ts) and verification of its specification claims.

The extension is UI glue around one HTTP POST: the command handler
`fixCode` reads the active editor, validates language and input, collects
diagnostics, sends the code to a configured webhook (`sendCodeToAI`), and
on success either applies the returned `fixedCode` directly or runs a
diff/confirm prompt flow (`showDiffAndApply`).

The host environment (active editor, configuration, the transport outcome
of the single POST, and the user's modal choices) is modelled as an
explicit `Env` record; `fixCode` becomes a pure function from `Env` to a
`FixOutcome` recording the notifications shown, the request issued (if
any), the edit applied (if any) and the resulting document text.
Because the code does not re-read the document between issuing the request
and applying the edit, `Env` carries `docAtApply`, the document state at
the moment the edit is applied; it equals the starting document exactly
when no concurrent edit happened during the network wait.
-/

namespace SelfHealing

/-- A zero-based position in a document: line and character, as in the
host editor API (`vscode.Position`). -/
structure Pos where
  line : Nat
  character : Nat
deriving DecidableEq, Repr

/-- A range between two positions (`vscode.Range`); a selection is a
range. -/
structure Range where
  start : Pos
  stop : Pos
deriving DecidableEq, Repr

/-- `selection.isEmpty`: the endpoints coincide. -/
def Range.isEmpty (r : Range) : Bool :=
  decide (r.start = r.stop)

/-- The active document (`vscode.TextDocument`): language identifier,
file name, and its text as a list of lines. -/
structure Document where
  languageId : String
  fileName : String
  lines : List String
deriving DecidableEq, Repr

/-- `document.lineCount`. -/
def Document.lineCount (d : Document) : Nat := d.lines.length

/-- `document.getText()`: the full text, lines joined by newlines. -/
def Document.text (d : Document) : String :=
  String.intercalate "\n" d.lines

/-- Character offset of a position in the document text, with the
clamping the editor API performs when validating positions: a line past
the end maps to the end of the text, a character past the end of its
line maps to the end of that line. -/
def Document.offsetAt (d : Document) (p : Pos) : Nat :=
  if p.line < d.lines.length then
    ((d.lines.take p.line).foldl (fun a l => a + l.length + 1) 0) +
      min p.character (d.lines.getD p.line "").length
  else
    d.text.length

/-- `document.getText(range)`: the text between the range's endpoints. -/
def Document.getTextIn (d : Document) (r : Range) : String :=
  ((d.text.toList.drop (d.offsetAt r.start)).take
    (d.offsetAt r.stop - d.offsetAt r.start)).asString

/-- `editBuilder.replace(range, s)`: the document text with the range
replaced by `s`. -/
def Document.replaceRange (d : Document) (r : Range) (s : String) : String :=
  ((d.text.toList.take (d.offsetAt r.start)) ++ s.toList ++
    (d.text.toList.drop (d.offsetAt r.stop))).asString

/-- `vscode.DiagnosticSeverity` enum members. -/
inductive DiagnosticSeverity where
  | error
  | warning
  | information
  | hint
deriving DecidableEq, Repr

/-- `vscode.DiagnosticSeverity[severity]`: the enum member's name. -/
def DiagnosticSeverity.label : DiagnosticSeverity → String
  | .error => "Error"
  | .warning => "Warning"
  | .information => "Information"
  | .hint => "Hint"

/-- A host-reported diagnostic: the zero-based start line of its range,
its message and its severity. -/
structure Diagnostic where
  startLine : Nat
  message : String
  severity : DiagnosticSeverity
deriving DecidableEq, Repr

/-- `getProblemsForFile` (extension.ts lines 247-255): format each
diagnostic as `Line <n>: <message> (<severity>)`, where `n` is the
one-based start line, keeping the diagnostics' order. -/
def getProblemsForFile (diagnostics : List Diagnostic) : List String :=
  diagnostics.map fun diagnostic =>
    "Line " ++ toString (diagnostic.startLine + 1) ++ ": " ++
      diagnostic.message ++ " (" ++ diagnostic.severity.label ++ ")"

/-- `getSupportedLanguages` (extension.ts lines 262-267). -/
def getSupportedLanguages : List String :=
  ["javascript", "typescript", "python", "java", "cpp", "c",
   "go", "php", "csharp", "ruby", "swift", "kotlin"]

/-- `isSupportedLanguage` (extension.ts lines 258-260). -/
def isSupportedLanguage (languageId : String) : Bool :=
  getSupportedLanguages.contains languageId

/-- The `selfHealing` configuration section. Each entry is `none` when
the user has not set it, matching `config.get` returning `undefined`;
defaults are applied at the read sites exactly as in the source. -/
structure Config where
  n8nWebhookUrl : Option String
  requestTimeout : Option Nat
  enableLogging : Option Bool
  showDiffPreview : Option Bool
deriving DecidableEq, Repr

/-- `CodeFixPayload` (extension.ts lines 288-293): the JSON body of the
POST. -/
structure CodeFixPayload where
  code : String
  language : String
  filename : String
  problems : List String
deriving DecidableEq, Repr

/-- `CodeFixResponse` (extension.ts lines 295-299). `fixedCode` and
`explanation` are `Option` because the remote body may lack either
field. -/
structure CodeFixResponse where
  fixedCode : Option String
  explanation : Option String
  confidence : Option Int
deriving DecidableEq, Repr

/-- JavaScript falsiness of an optional string: the field is missing or
the empty string. -/
def jsFalsyStr : Option String → Bool
  | none => true
  | some s => decide (s = "")

/-- JavaScript template rendering of a possibly missing string
(`undefined` prints as the string "undefined"). -/
def jsStr : Option String → String
  | none => "undefined"
  | some s => s

/-- The error object axios rejects with: an optional `code` (such as
ECONNREFUSED or ECONNABORTED), an optional `response.status`, and the
error message. -/
structure AxiosError where
  code : Option String
  responseStatus : Option Nat
  message : String
deriving DecidableEq, Repr

/-- The transport outcome of the single POST, supplied by the
environment: either a parsed response body or an axios error. -/
inductive HttpOutcome where
  | success (resp : CodeFixResponse)
  | failure (e : AxiosError)
deriving DecidableEq, Repr

/-- The catch block of `sendCodeToAI` (extension.ts lines 150-162): map
an axios error to the message of the error thrown in its place. -/
def mapAxiosError (webhookUrl : String) (timeout : Nat) (e : AxiosError) : String :=
  if e.code = some "ECONNREFUSED" then
    "Cannot connect to n8n at " ++ webhookUrl ++ ". Is n8n running?"
  else if e.responseStatus = some 404 then
    "Webhook endpoint not found. Check your n8n workflow."
  else if e.code = some "ECONNABORTED" then
    "Request timed out after " ++ toString timeout ++ "ms. Try increasing the timeout."
  else
    e.message

/-- `sendCodeToAI` (extension.ts lines 121-163): check the configured
webhook URL (JavaScript falsiness: missing or empty string), then issue
the single POST. Returns the result (`Except` models throw) together
with the payload actually posted, `none` when no HTTP call was made. -/
def sendCodeToAI (config : Config) (payload : CodeFixPayload)
    (http : HttpOutcome) : Except String CodeFixResponse × Option CodeFixPayload :=
  match config.n8nWebhookUrl with
  | none =>
    (.error "n8n webhook URL not configured. Please check your settings.", none)
  | some webhookUrl =>
    if webhookUrl = "" then
      (.error "n8n webhook URL not configured. Please check your settings.", none)
    else
      let timeout := config.requestTimeout.getD 30000
      match http with
      | .success resp => (.ok resp, some payload)
      | .failure e => (.error (mapAxiosError webhookUrl timeout e), some payload)

/-- The first modal prompt's offered items (extension.ts lines 173-179):
Apply Changes, Show Diff, Cancel. -/
inductive DiffPromptChoice where
  | applyChanges
  | showDiff
  | cancel
deriving DecidableEq, Repr

/-- The second prompt's offered items after showing the diff
(extension.ts lines 190-194): Apply, Cancel. -/
inductive ApplyPromptChoice where
  | apply
  | cancel
deriving DecidableEq, Repr

/-- A user-visible notification: error, warning or information message. -/
inductive Notice where
  | error (msg : String)
  | warning (msg : String)
  | info (msg : String)
deriving DecidableEq, Repr

/-- Whether a notice reports a failure (error or warning message, as
opposed to an information notice). -/
def Notice.isErrorOrWarning : Notice → Bool
  | .error _ => true
  | .warning _ => true
  | .info _ => false

/-- `showSuccessMessage` (extension.ts lines 269-273). -/
def showSuccessMessage (explanation : Option String) : Notice :=
  .info ("âœ… Code fixed successfully! " ++ jsStr explanation)

/-- `handleError` (extension.ts lines 275-285): every error thrown in
the flow is an `Error` with a message, so the `instanceof Error` branch
always fires and the shown message is the error's own message with the
assistant prefix. -/
def handleError (message : String) : Notice :=
  .error ("Self-Healing Assistant: " ++ message)

/-- `applyFixedCode` (extension.ts lines 208-216): replace the range in
the document with the fixed code and return the resulting text. -/
def applyFixedCode (document : Document) (fixedCode : String) (range : Range) : String :=
  document.replaceRange range fixedCode

/-- `showDiffAndApply` (extension.ts lines 166-205) as a decision
function: given the two prompt answers (`none` models the modal being
dismissed with no choice), return the notices shown, the edit to apply
(range and replacement text, `none` when no edit happens) and whether
the diff document was shown. `originalCode` is only rendered in the diff
view. -/
def showDiffAndApply (originalCode : String) (fixedCode : String)
    (explanation : Option String) (range : Range)
    (firstChoice : Option DiffPromptChoice)
    (secondChoice : Option ApplyPromptChoice) :
    List Notice × Option (Range × String) × Bool :=
  let _ := originalCode
  match firstChoice with
  | some .applyChanges =>
    ([showSuccessMessage explanation], some (range, fixedCode), false)
  | some .showDiff =>
    match secondChoice with
    | some .apply => ([showSuccessMessage explanation], some (range, fixedCode), true)
    | _ => ([], none, true)
  | some .cancel =>
    ([.info "Code fix cancelled."], none, false)
  | none =>
    ([], none, false)

/-- The active editor (`vscode.window.activeTextEditor`): a document and
a selection. -/
structure Editor where
  document : Document
  selection : Range
deriving DecidableEq, Repr

/-- The host environment for one invocation: the active editor (if any),
the diagnostics known for the document, the configuration snapshot, the
transport outcome of the POST, the user's answers to the two prompts,
and the state of the document at the moment the edit is applied
(`docAtApply = editor.document` when nothing edited the document during
the network wait). -/
structure Env where
  editor : Option Editor
  diagnostics : List Diagnostic
  config : Config
  http : HttpOutcome
  firstChoice : Option DiffPromptChoice
  secondChoice : Option ApplyPromptChoice
  docAtApply : Document
deriving DecidableEq, Repr

/-- The observable outcome of one invocation: the notifications shown in
order, the payload POSTed (`none` when no HTTP call was made), the edit
applied (`none` when the document was not touched), whether the diff
view was shown, and the document text after the flow. -/
structure FixOutcome where
  notices : List Notice
  request : Option CodeFixPayload
  editApplied : Option (Range × String)
  diffShown : Bool
  finalText : String
deriving DecidableEq, Repr

/-- Lines 49-64 of `fixCode`: the code to fix and the range to replace.
Selection scope with a non-empty selection takes the selection text and
range; whole-file scope takes the full text and a range from (0,0) to
(lineCount, 0); selection scope with no selection is the error case
(`none`). -/
def computeCodeAndRange (selectionOnly : Bool) (editor : Editor) :
    Option (String × Range) :=
  let hasSelection := !(editor.selection.isEmpty)
  if selectionOnly && hasSelection then
    some (editor.document.getTextIn editor.selection, editor.selection)
  else if !selectionOnly then
    some (editor.document.text, ⟨⟨0, 0⟩, ⟨editor.document.lineCount, 0⟩⟩)
  else
    none

/-- JavaScript `String.prototype.trim()`: strip whitespace from both
ends (written over character lists so that it evaluates inside the
kernel). -/
def jsTrim (s : String) : String :=
  ((s.toList.dropWhile Char.isWhitespace).reverse.dropWhile
    Char.isWhitespace).reverse.asString

/-- The rest of `fixCode` once code and range are computed (extension.ts
lines 66-117): the empty-input check, the progress block that collects
diagnostics, sends the request, checks `fixedCode` and applies or
previews, and the top-level catch that routes every thrown error to
`handleError`. -/
def fixCodeBody (env : Env) (document : Document) (codeToFix : String)
    (rangeToReplace : Range) : FixOutcome :=
  if jsTrim codeToFix = "" then
    { notices := [.error "Selected code is empty."], request := none,
      editApplied := none, diffShown := false,
      finalText := env.docAtApply.text }
  else
    match sendCodeToAI env.config
        { code := codeToFix, language := document.languageId,
          filename := document.fileName,
          problems := getProblemsForFile env.diagnostics } env.http with
    | (.error msg, req) =>
      { notices := [handleError msg], request := req, editApplied := none,
        diffShown := false, finalText := env.docAtApply.text }
    | (.ok result, req) =>
      if jsFalsyStr result.fixedCode then
        { notices := [handleError "No fixed code received from AI"],
          request := req, editApplied := none, diffShown := false,
          finalText := env.docAtApply.text }
      else
        if env.config.showDiffPreview.getD true then
          match showDiffAndApply codeToFix (jsStr result.fixedCode)
              result.explanation rangeToReplace env.firstChoice
              env.secondChoice with
          | (ns, edit, shown) =>
            { notices := ns, request := req, editApplied := edit,
              diffShown := shown,
              finalText :=
                match edit with
                | some (r, s) => applyFixedCode env.docAtApply s r
                | none => env.docAtApply.text }
        else
          { notices := [showSuccessMessage result.explanation], request := req,
            editApplied := some (rangeToReplace, jsStr result.fixedCode),
            diffShown := false,
            finalText := applyFixedCode env.docAtApply (jsStr result.fixedCode)
              rangeToReplace }

/-- `fixCode` (extension.ts lines 29-118): the command handler. Checks
the active editor, the language allow-list, computes code and range by
scope, and runs the request/apply flow. -/
def fixCode (selectionOnly : Bool) (env : Env) : FixOutcome :=
  match env.editor with
  | none =>
    { notices := [.error "No active editor found. Please open a file first."],
      request := none, editApplied := none, diffShown := false,
      finalText := env.docAtApply.text }
  | some editor =>
    let document := editor.document
    if !(isSupportedLanguage document.languageId) then
      { notices := [.warning ("Language \"" ++ document.languageId ++
          "\" is not supported yet. Supported: " ++
          String.intercalate ", " getSupportedLanguages)],
        request := none, editApplied := none, diffShown := false,
        finalText := env.docAtApply.text }
    else
      match computeCodeAndRange selectionOnly editor with
      | some (codeToFix, rangeToReplace) =>
        fixCodeBody env document codeToFix rangeToReplace
      | none =>
        { notices := [.error "No code selected. Select code first or use \"Fix Entire File\"."],
          request := none, editApplied := none, diffShown := false,
          finalText := env.docAtApply.text }

/-- `hay` contains `needle` as a substring. -/
def includesStr (hay needle : String) : Prop :=
  ∃ a b, hay = a ++ needle ++ b

/-! ## Helper lemmas shared by the claim theorems -/

theorem sendCodeToAI_no_url (config : Config) (payload : CodeFixPayload)
    (http : HttpOutcome) (h : config.n8nWebhookUrl = none) :
    sendCodeToAI config payload http =
      (.error "n8n webhook URL not configured. Please check your settings.", none) := by
  simp [sendCodeToAI, h]

theorem sendCodeToAI_configured (config : Config) (payload : CodeFixPayload)
    (http : HttpOutcome) (url : String)
    (hurl : config.n8nWebhookUrl = some url) (hu : url ≠ "") :
    sendCodeToAI config payload http =
      (match http with
       | .success resp => (.ok resp, some payload)
       | .failure e =>
         (.error (mapAxiosError url (config.requestTimeout.getD 30000) e),
          some payload)) := by
  simp [sendCodeToAI, hurl, hu]

theorem fixCode_eq_body (selectionOnly : Bool) (env : Env) (editor : Editor)
    (code : String) (range : Range)
    (hed : env.editor = some editor)
    (hlang : isSupportedLanguage editor.document.languageId = true)
    (hcr : computeCodeAndRange selectionOnly editor = some (code, range)) :
    fixCode selectionOnly env = fixCodeBody env editor.document code range := by
  unfold fixCode
  rw [hed]
  simp only [hlang, Bool.not_true, Bool.false_eq_true, if_false, hcr]

theorem jsFalsyStr_false (o : Option String) (h : jsFalsyStr o = false) :
    o = some (jsStr o) ∧ jsStr o ≠ "" := by
  cases o with
  | none => simp [jsFalsyStr] at h
  | some s =>
    simp only [jsFalsyStr, decide_eq_false_iff_not] at h
    exact ⟨rfl, h⟩

theorem showDiffAndApply_shape (originalCode fixedCode : String)
    (explanation : Option String) (range : Range)
    (firstChoice : Option DiffPromptChoice)
    (secondChoice : Option ApplyPromptChoice) :
    showDiffAndApply originalCode fixedCode explanation range firstChoice secondChoice =
        ([showSuccessMessage explanation], some (range, fixedCode), false) ∨
    showDiffAndApply originalCode fixedCode explanation range firstChoice secondChoice =
        ([showSuccessMessage explanation], some (range, fixedCode), true) ∨
    showDiffAndApply originalCode fixedCode explanation range firstChoice secondChoice =
        ([.info "Code fix cancelled."], none, false) ∨
    showDiffAndApply originalCode fixedCode explanation range firstChoice secondChoice =
        ([], none, true) ∨
    showDiffAndApply originalCode fixedCode explanation range firstChoice secondChoice =
        ([], none, false) := by
  unfold showDiffAndApply
  rcases firstChoice with _ | c
  · exact Or.inr (Or.inr (Or.inr (Or.inr rfl)))
  · cases c with
    | applyChanges => exact Or.inl rfl
    | showDiff =>
      rcases secondChoice with _ | c2
      · exact Or.inr (Or.inr (Or.inr (Or.inl rfl)))
      · cases c2 with
        | apply => exact Or.inr (Or.inl rfl)
        | cancel => exact Or.inr (Or.inr (Or.inr (Or.inl rfl)))
    | cancel => exact Or.inr (Or.inr (Or.inl rfl))

theorem fixCodeBody_success (env : Env) (document : Document) (code : String)
    (range : Range) (resp : CodeFixResponse) (url : String)
    (hne : jsTrim code ≠ "")
    (hurl : env.config.n8nWebhookUrl = some url) (hu : url ≠ "")
    (hhttp : env.http = .success resp)
    (hfix : jsFalsyStr resp.fixedCode = false) :
    fixCodeBody env document code range =
      if env.config.showDiffPreview.getD true then
        match showDiffAndApply code (jsStr resp.fixedCode) resp.explanation
            range env.firstChoice env.secondChoice with
        | (ns, edit, shown) =>
          { notices := ns,
            request := some { code := code, language := document.languageId,
                              filename := document.fileName,
                              problems := getProblemsForFile env.diagnostics },
            editApplied := edit, diffShown := shown,
            finalText :=
              match edit with
              | some (r, s) => applyFixedCode env.docAtApply s r
              | none => env.docAtApply.text }
      else
        { notices := [showSuccessMessage resp.explanation],
          request := some { code := code, language := document.languageId,
                            filename := document.fileName,
                            problems := getProblemsForFile env.diagnostics },
          editApplied := some (range, jsStr resp.fixedCode), diffShown := false,
          finalText := applyFixedCode env.docAtApply (jsStr resp.fixedCode)
            range } := by
  unfold fixCodeBody
  rw [if_neg hne, hhttp, sendCodeToAI_configured _ _ _ _ hurl hu]
  simp only [hfix, Bool.false_eq_true, if_false]

theorem fixCodeBody_send_error (env : Env) (document : Document) (code : String)
    (range : Range) (msg : String) (req : Option CodeFixPayload)
    (hne : jsTrim code ≠ "")
    (hsend : sendCodeToAI env.config
      { code := code, language := document.languageId,
        filename := document.fileName,
        problems := getProblemsForFile env.diagnostics } env.http = (.error msg, req)) :
    fixCodeBody env document code range =
      { notices := [handleError msg], request := req, editApplied := none,
        diffShown := false, finalText := env.docAtApply.text } := by
  unfold fixCodeBody
  rw [if_neg hne, hsend]

theorem sendCodeToAI_shape (config : Config) (payload : CodeFixPayload)
    (http : HttpOutcome) :
    (∃ m req, sendCodeToAI config payload http = (.error m, req)) ∨
    (∃ resp, sendCodeToAI config payload http = (.ok resp, some payload)) := by
  rcases hc : config.n8nWebhookUrl with _ | url
  · exact Or.inl ⟨_, _, sendCodeToAI_no_url config payload http hc⟩
  · by_cases hu : url = ""
    · have hsend : sendCodeToAI config payload http =
          (.error "n8n webhook URL not configured. Please check your settings.",
           none) := by
        unfold sendCodeToAI
        rw [hc]
        subst hu
        rfl
      exact Or.inl ⟨_, _, hsend⟩
    · rw [sendCodeToAI_configured config payload http url hc hu]
      cases http with
      | success resp => exact Or.inr ⟨resp, rfl⟩
      | failure e => exact Or.inl ⟨_, _, rfl⟩

theorem fixCodeBody_empty (env : Env) (document : Document) (code : String)
    (range : Range) (hne : jsTrim code = "") :
    fixCodeBody env document code range =
      { notices := [.error "Selected code is empty."], request := none,
        editApplied := none, diffShown := false,
        finalText := env.docAtApply.text } := by
  unfold fixCodeBody
  rw [if_pos hne]

theorem fixCodeBody_invalid (env : Env) (document : Document) (code : String)
    (range : Range) (resp : CodeFixResponse) (req : Option CodeFixPayload)
    (hne : jsTrim code ≠ "")
    (hsend : sendCodeToAI env.config
      { code := code, language := document.languageId,
        filename := document.fileName,
        problems := getProblemsForFile env.diagnostics } env.http = (.ok resp, req))
    (hfalsy : jsFalsyStr resp.fixedCode = true) :
    fixCodeBody env document code range =
      { notices := [handleError "No fixed code received from AI"],
        request := req, editApplied := none, diffShown := false,
        finalText := env.docAtApply.text } := by
  unfold fixCodeBody
  rw [if_neg hne, hsend]
  simp only [hfalsy, if_true]

theorem fixCodeBody_valid (env : Env) (document : Document) (code : String)
    (range : Range) (resp : CodeFixResponse) (req : Option CodeFixPayload)
    (hne : jsTrim code ≠ "")
    (hsend : sendCodeToAI env.config
      { code := code, language := document.languageId,
        filename := document.fileName,
        problems := getProblemsForFile env.diagnostics } env.http = (.ok resp, req))
    (hfix : jsFalsyStr resp.fixedCode = false) :
    fixCodeBody env document code range =
      if env.config.showDiffPreview.getD true then
        match showDiffAndApply code (jsStr resp.fixedCode) resp.explanation
            range env.firstChoice env.secondChoice with
        | (ns, edit, shown) =>
          { notices := ns, request := req, editApplied := edit,
            diffShown := shown,
            finalText :=
              match edit with
              | some (r, s) => applyFixedCode env.docAtApply s r
              | none => env.docAtApply.text }
      else
        { notices := [showSuccessMessage resp.explanation], request := req,
          editApplied := some (range, jsStr resp.fixedCode), diffShown := false,
          finalText := applyFixedCode env.docAtApply (jsStr resp.fixedCode)
            range } := by
  unfold fixCodeBody
  rw [if_neg hne, hsend]
  simp only [hfix, Bool.false_eq_true, if_false]

theorem fixCodeBody_shape (env : Env) (document : Document) (code : String)
    (range : Range) :
    ((fixCodeBody env document code range).editApplied = none ∧
     (fixCodeBody env document code range).finalText = env.docAtApply.text ∧
     ((fixCodeBody env document code range).notices = [] ∨
      (∃ m, (fixCodeBody env document code range).notices = [Notice.error m]) ∨
      (fixCodeBody env document code range).notices =
        [Notice.info "Code fix cancelled."])) ∨
    (∃ s expl, (fixCodeBody env document code range).editApplied = some (range, s) ∧
      (fixCodeBody env document code range).finalText =
        applyFixedCode env.docAtApply s range ∧
      (fixCodeBody env document code range).notices = [showSuccessMessage expl]) := by
  by_cases hne : jsTrim code = ""
  · rw [fixCodeBody_empty env document code range hne]
    exact Or.inl ⟨rfl, rfl, Or.inr (Or.inl ⟨_, rfl⟩)⟩
  · rcases sendCodeToAI_shape env.config
        { code := code, language := document.languageId,
          filename := document.fileName,
          problems := getProblemsForFile env.diagnostics } env.http with
      ⟨m, req, hs⟩ | ⟨resp, hs⟩
    · rw [fixCodeBody_send_error env document code range m req hne hs]
      exact Or.inl ⟨rfl, rfl, Or.inr (Or.inl ⟨_, rfl⟩)⟩
    · by_cases hf : jsFalsyStr resp.fixedCode = true
      · rw [fixCodeBody_invalid env document code range resp _ hne hs hf]
        exact Or.inl ⟨rfl, rfl, Or.inr (Or.inl ⟨_, rfl⟩)⟩
      · have hf2 : jsFalsyStr resp.fixedCode = false := by
          simpa using hf
        rw [fixCodeBody_valid env document code range resp _ hne hs hf2]
        by_cases hd : env.config.showDiffPreview.getD true = true
        · rw [if_pos hd]
          rcases showDiffAndApply_shape code (jsStr resp.fixedCode)
              resp.explanation range env.firstChoice env.secondChoice with
            hd2 | hd2 | hd2 | hd2 | hd2 <;> rw [hd2]
          · exact Or.inr ⟨_, _, rfl, rfl, rfl⟩
          · exact Or.inr ⟨_, _, rfl, rfl, rfl⟩
          · exact Or.inl ⟨rfl, rfl, Or.inr (Or.inr rfl)⟩
          · exact Or.inl ⟨rfl, rfl, Or.inl rfl⟩
          · exact Or.inl ⟨rfl, rfl, Or.inl rfl⟩
        · rw [if_neg hd]
          exact Or.inr ⟨_, _, rfl, rfl, rfl⟩

theorem fixCode_shape (selectionOnly : Bool) (env : Env) :
    ((fixCode selectionOnly env).editApplied = none ∧
     (fixCode selectionOnly env).finalText = env.docAtApply.text ∧
     ((fixCode selectionOnly env).notices = [] ∨
      (∃ m, (fixCode selectionOnly env).notices = [Notice.error m]) ∨
      (∃ m, (fixCode selectionOnly env).notices = [Notice.warning m]) ∨
      (fixCode selectionOnly env).notices = [Notice.info "Code fix cancelled."])) ∨
    (∃ r s expl, (fixCode selectionOnly env).editApplied = some (r, s) ∧
      (fixCode selectionOnly env).finalText = applyFixedCode env.docAtApply s r ∧
      (fixCode selectionOnly env).notices = [showSuccessMessage expl]) := by
  unfold fixCode
  cases hed : env.editor with
  | none => exact Or.inl ⟨rfl, rfl, Or.inr (Or.inl ⟨_, rfl⟩)⟩
  | some editor =>
    simp only
    split
    · exact Or.inl ⟨rfl, rfl, Or.inr (Or.inr (Or.inl ⟨_, rfl⟩))⟩
    · split
      · rcases fixCodeBody_shape env editor.document _ _ with
          ⟨h1, h2, h3⟩ | ⟨s, expl, h1, h2, h3⟩
        · refine Or.inl ⟨h1, h2, ?_⟩
          rcases h3 with h | ⟨m, h⟩ | h
          · exact Or.inl h
          · exact Or.inr (Or.inl ⟨m, h⟩)
          · exact Or.inr (Or.inr (Or.inr h))
        · exact Or.inr ⟨_, s, expl, h1, h2, h3⟩
      · exact Or.inl ⟨rfl, rfl, Or.inr (Or.inl ⟨_, rfl⟩)⟩

theorem fixCodeBody_edit_range (env : Env) (document : Document) (code : String)
    (range : Range) (r : Range) (s : String)
    (h : (fixCodeBody env document code range).editApplied = some (r, s)) :
    r = range ∧
    (fixCodeBody env document code range).finalText =
      env.docAtApply.replaceRange r s := by
  rcases fixCodeBody_shape env document code range with
    ⟨h1, -, -⟩ | ⟨s2, expl, h1, h2, -⟩
  · rw [h1] at h; cases h
  · rw [h1] at h
    obtain ⟨hr, hs⟩ : range = r ∧ s2 = s := by
      have := Option.some.inj h
      exact ⟨(Prod.mk.injEq _ _ _ _ ▸ this).1, (Prod.mk.injEq _ _ _ _ ▸ this).2⟩
    subst hr hs
    exact ⟨rfl, h2⟩

/-! ## Concrete sample data used by witnesses -/

def sampleDoc : Document := ⟨"javascript", "test.js", ["cosnole.log(1)"]⟩

def sampleResp : CodeFixResponse := ⟨some "console.log(1)", some "fixed typo", none⟩

def sampleEnv : Env :=
  { editor := some ⟨sampleDoc, ⟨⟨0, 0⟩, ⟨0, 14⟩⟩⟩,
    diagnostics := [⟨0, "cosnole is not defined", .error⟩],
    config := ⟨some "http://localhost:5678/webhook", none, none, some false⟩,
    http := .success sampleResp,
    firstChoice := none,
    secondChoice := none,
    docAtApply := sampleDoc }

/-! ## Claim theorems -/

/-- C9: for every list of diagnostics known for the document, the
diagnostic collector returns one formatted string per diagnostic, each
of the form `Line <n>: <message> (<severity>)` with `n` the one-based
start line, in the diagnostics' source order with no deduplication and
no sorting: the output has the same length as the input and its `i`-th
element is exactly the formatting of the `i`-th diagnostic. -/
theorem C9_diagnostics_formatted_in_order (diagnostics : List Diagnostic) :
    (getProblemsForFile diagnostics).length = diagnostics.length ∧
    ∀ i : Nat, (getProblemsForFile diagnostics)[i]? =
      (diagnostics[i]?).map (fun d =>
        "Line " ++ toString (d.startLine + 1) ++ ": " ++ d.message ++
          " (" ++ d.severity.label ++ ")") := by
  refine ⟨by simp [getProblemsForFile], fun i => ?_⟩
  simp [getProblemsForFile]

/-- C5: the remote fix client maps each transport failure of the single
POST to a distinct, non-retried error: connection refused
(code ECONNREFUSED) yields the service-unavailable message, which
includes the endpoint URL; otherwise HTTP 404 yields the
endpoint-not-found message; otherwise a timeout (code ECONNABORTED)
yields the timed-out message, which includes the configured timeout
value; every other transport error is propagated with its original
message. In every case the one POST was issued and no retry happens
(the client makes a single attempt by construction). -/
theorem C5_transport_error_mapping (config : Config) (payload : CodeFixPayload)
    (e : AxiosError) (url : String)
    (hurl : config.n8nWebhookUrl = some url) (hu : url ≠ "") :
    (sendCodeToAI config payload (.failure e)).2 = some payload ∧
    ∃ msg, (sendCodeToAI config payload (.failure e)).1 = .error msg ∧
      (e.code = some "ECONNREFUSED" →
        msg = "Cannot connect to n8n at " ++ url ++ ". Is n8n running?" ∧
        includesStr msg url) ∧
      (e.code ≠ some "ECONNREFUSED" → e.responseStatus = some 404 →
        msg = "Webhook endpoint not found. Check your n8n workflow.") ∧
      (e.code ≠ some "ECONNREFUSED" → e.responseStatus ≠ some 404 →
        e.code = some "ECONNABORTED" →
        msg = "Request timed out after " ++
            toString (config.requestTimeout.getD 30000) ++
            "ms. Try increasing the timeout." ∧
        includesStr msg (toString (config.requestTimeout.getD 30000))) ∧
      (e.code ≠ some "ECONNREFUSED" → e.responseStatus ≠ some 404 →
        e.code ≠ some "ECONNABORTED" → msg = e.message) := by
  rw [sendCodeToAI_configured config payload _ url hurl hu]
  refine ⟨rfl, mapAxiosError url (config.requestTimeout.getD 30000) e, rfl,
    ?_, ?_, ?_, ?_⟩
  · intro hc
    rw [mapAxiosError, if_pos hc]
    exact ⟨rfl, "Cannot connect to n8n at ", ". Is n8n running?", rfl⟩
  · intro hc h404
    rw [mapAxiosError, if_neg hc, if_pos h404]
  · intro hc h404 habort
    rw [mapAxiosError, if_neg hc, if_neg h404, if_pos habort]
    exact ⟨rfl, "Request timed out after ", "ms. Try increasing the timeout.", rfl⟩
  · intro hc h404 habort
    rw [mapAxiosError, if_neg hc, if_neg h404, if_neg habort]

/-- Witness for C5 at a concrete connection-refused error. -/
theorem C5_transport_error_mapping_witness :
    (sendCodeToAI ⟨some "http://localhost:5678/webhook", none, none, none⟩
        ⟨"x", "javascript", "a.js", []⟩
        (.failure ⟨some "ECONNREFUSED", none, "connect ECONNREFUSED"⟩)).1 =
      .error "Cannot connect to n8n at http://localhost:5678/webhook. Is n8n running?" := by
  obtain ⟨-, msg, h1, hrefused, -, -, -⟩ :=
    C5_transport_error_mapping
      ⟨some "http://localhost:5678/webhook", none, none, none⟩
      ⟨"x", "javascript", "a.js", []⟩
      ⟨some "ECONNREFUSED", none, "connect ECONNREFUSED"⟩
      "http://localhost:5678/webhook" rfl (by decide)
  rw [h1, (hrefused rfl).1]
  rfl

/-- C6: for every invocation in which no endpoint URL is configured, no
HTTP call is attempted (no request is ever issued), and whenever the
invocation gets past the earlier editor/language/selection/empty checks
it fails with the configuration error notification and applies no
edit. -/
theorem C6_no_endpoint_fails_without_http (selectionOnly : Bool) (env : Env)
    (hcfg : env.config.n8nWebhookUrl = none) :
    (fixCode selectionOnly env).request = none ∧
    ∀ editor code range,
      env.editor = some editor →
      isSupportedLanguage editor.document.languageId = true →
      computeCodeAndRange selectionOnly editor = some (code, range) →
      jsTrim code ≠ "" →
      (fixCode selectionOnly env).notices =
        [.error "Self-Healing Assistant: n8n webhook URL not configured. Please check your settings."] ∧
      (fixCode selectionOnly env).editApplied = none := by
  constructor
  · unfold fixCode
    cases hed : env.editor with
    | none => rfl
    | some editor =>
      simp only
      split
      · rfl
      · split
        · unfold fixCodeBody
          split
          · rfl
          · simp only [sendCodeToAI_no_url _ _ _ hcfg]
        · rfl
  · intro editor code range hed hlang hcr hne
    rw [fixCode_eq_body selectionOnly env editor code range hed hlang hcr]
    unfold fixCodeBody
    rw [if_neg hne]
    simp only [sendCodeToAI_no_url _ _ _ hcfg]
    constructor <;> trivial

/-- Witness for C6 at a concrete whole-file invocation with no endpoint
configured. -/
theorem C6_no_endpoint_fails_without_http_witness :
    (fixCode false { sampleEnv with config := ⟨none, none, none, none⟩ }).request = none ∧
    (fixCode false { sampleEnv with config := ⟨none, none, none, none⟩ }).notices =
      [.error "Self-Healing Assistant: n8n webhook URL not configured. Please check your settings."] := by
  have h := C6_no_endpoint_fails_without_http false
    { sampleEnv with config := ⟨none, none, none, none⟩ } rfl
  exact ⟨h.1,
    (h.2 ⟨sampleDoc, ⟨⟨0, 0⟩, ⟨0, 14⟩⟩⟩ sampleDoc.text ⟨⟨0, 0⟩, ⟨sampleDoc.lineCount, 0⟩⟩
      rfl (by decide) rfl (by decide)).1⟩

/-- C3: an invocation whose document language is not in the fixed
allow-list rejects with a warning naming the supported set, before any
network call (no request, no edit); an invocation that passes the
language check but whose input text is empty or whitespace-only rejects
with an error message, again before any network call. -/
theorem C3_unsupported_language_and_empty_input_reject (selectionOnly : Bool)
    (env : Env) (editor : Editor) (hed : env.editor = some editor) :
    (editor.document.languageId ∉
        (["javascript", "typescript", "python", "java", "cpp", "c",
          "go", "php", "csharp", "ruby", "swift", "kotlin"] : List String) →
      (fixCode selectionOnly env).request = none ∧
      (fixCode selectionOnly env).editApplied = none ∧
      (fixCode selectionOnly env).notices =
        [.warning ("Language \"" ++ editor.document.languageId ++
          "\" is not supported yet. Supported: javascript, typescript, python, java, cpp, c, go, php, csharp, ruby, swift, kotlin")]) ∧
    ∀ code range,
      isSupportedLanguage editor.document.languageId = true →
      computeCodeAndRange selectionOnly editor = some (code, range) →
      jsTrim code = "" →
      (fixCode selectionOnly env).request = none ∧
      (fixCode selectionOnly env).editApplied = none ∧
      (fixCode selectionOnly env).notices = [.error "Selected code is empty."] := by
  constructor
  · intro hmem
    have hl : isSupportedLanguage editor.document.languageId = false := by
      simp [isSupportedLanguage, getSupportedLanguages, List.contains, hmem]
    unfold fixCode
    rw [hed]
    simp only [hl, Bool.not_false, if_true]
    refine ⟨by trivial, by trivial, ?_⟩
    rw [show String.intercalate ", " getSupportedLanguages =
        "javascript, typescript, python, java, cpp, c, go, php, csharp, ruby, swift, kotlin" from rfl,
      String.append_assoc]
    rfl
  · intro code range hlang hcr hempty
    rw [fixCode_eq_body selectionOnly env editor code range hed hlang hcr]
    unfold fixCodeBody
    rw [if_pos hempty]
    exact ⟨rfl, rfl, rfl⟩

/-- Witness for C3: a concrete unsupported-language invocation
(language haskell) and a concrete whitespace-only whole-file
invocation. -/
theorem C3_unsupported_language_and_empty_input_reject_witness :
    ((fixCode false { sampleEnv with
        editor := some ⟨⟨"haskell", "a.hs", ["x = 1"]⟩, ⟨⟨0, 0⟩, ⟨0, 0⟩⟩⟩ }).request = none ∧
      (fixCode false { sampleEnv with
        editor := some ⟨⟨"haskell", "a.hs", ["x = 1"]⟩, ⟨⟨0, 0⟩, ⟨0, 0⟩⟩⟩ }).notices =
        [.warning "Language \"haskell\" is not supported yet. Supported: javascript, typescript, python, java, cpp, c, go, php, csharp, ruby, swift, kotlin"]) ∧
    ((fixCode false { sampleEnv with
        editor := some ⟨⟨"javascript", "blank.js", ["   "]⟩, ⟨⟨0, 0⟩, ⟨0, 0⟩⟩⟩ }).request = none ∧
      (fixCode false { sampleEnv with
        editor := some ⟨⟨"javascript", "blank.js", ["   "]⟩, ⟨⟨0, 0⟩, ⟨0, 0⟩⟩⟩ }).notices =
        [.error "Selected code is empty."]) := by
  constructor
  · have h := (C3_unsupported_language_and_empty_input_reject false
      { sampleEnv with
        editor := some ⟨⟨"haskell", "a.hs", ["x = 1"]⟩, ⟨⟨0, 0⟩, ⟨0, 0⟩⟩⟩ }
      ⟨⟨"haskell", "a.hs", ["x = 1"]⟩, ⟨⟨0, 0⟩, ⟨0, 0⟩⟩⟩ rfl).1 (by decide)
    exact ⟨h.1, h.2.2⟩
  · have h := (C3_unsupported_language_and_empty_input_reject false
      { sampleEnv with
        editor := some ⟨⟨"javascript", "blank.js", ["   "]⟩, ⟨⟨0, 0⟩, ⟨0, 0⟩⟩⟩ }
      ⟨⟨"javascript", "blank.js", ["   "]⟩, ⟨⟨0, 0⟩, ⟨0, 0⟩⟩⟩ rfl).2
      "   " ⟨⟨0, 0⟩, ⟨1, 0⟩⟩ (by decide) rfl (by decide)
    exact ⟨h.1, h.2.2⟩

/-- C2: whenever an invocation of the command handler ends in an error
(an error or warning notification was shown), that notification is the
single user-visible notification of the invocation, there is no retry
loop (the flow is a single pass by construction), the error does not
escape the handler (the outcome is always a well-defined `FixOutcome`),
and no edit is applied: the document text is unchanged. -/
theorem C2_errors_single_notification_no_edit (selectionOnly : Bool) (env : Env)
    (n : Notice) (hmem : n ∈ (fixCode selectionOnly env).notices)
    (herr : n.isErrorOrWarning = true) :
    (fixCode selectionOnly env).notices = [n] ∧
    (fixCode selectionOnly env).editApplied = none ∧
    (fixCode selectionOnly env).finalText = env.docAtApply.text := by
  rcases fixCode_shape selectionOnly env with
    ⟨hedit, htext, hn⟩ | ⟨r, s, expl, hedit, htext, hn⟩
  · rcases hn with h | ⟨m, h⟩ | ⟨m, h⟩ | h
    · rw [h] at hmem
      cases hmem
    · rw [h] at hmem
      rw [← List.mem_singleton.mp hmem] at h
      exact ⟨h, hedit, htext⟩
    · rw [h] at hmem
      rw [← List.mem_singleton.mp hmem] at h
      exact ⟨h, hedit, htext⟩
    · rw [h] at hmem
      rw [List.mem_singleton.mp hmem] at herr
      cases herr
  · rw [hn] at hmem
    rw [List.mem_singleton.mp hmem] at herr
    cases herr

/-- Witness for C2 at the concrete no-active-editor failure. -/
theorem C2_errors_single_notification_no_edit_witness :
    (fixCode true { sampleEnv with editor := none }).notices =
      [.error "No active editor found. Please open a file first."] ∧
    (fixCode true { sampleEnv with editor := none }).editApplied = none := by
  have h := C2_errors_single_notification_no_edit true
    { sampleEnv with editor := none }
    (.error "No active editor found. Please open a file first.")
    (by decide) (by decide)
  exact ⟨h.1, h.2.1⟩

/-- C4: when the response body lacks `fixedCode` or its `fixedCode` is
empty, the flow fails with the invalid-response error and performs no
edit (document text unchanged); conversely, an edit is only ever applied
with a non-empty `fixedCode` taken from the response. -/
theorem C4_invalid_response_no_edit (selectionOnly : Bool) (env : Env)
    (editor : Editor) (code : String) (range : Range) (resp : CodeFixResponse)
    (url : String)
    (hed : env.editor = some editor)
    (hlang : isSupportedLanguage editor.document.languageId = true)
    (hcr : computeCodeAndRange selectionOnly editor = some (code, range))
    (hne : jsTrim code ≠ "")
    (hurl : env.config.n8nWebhookUrl = some url) (hu : url ≠ "")
    (hhttp : env.http = .success resp) :
    (jsFalsyStr resp.fixedCode = true →
      (fixCode selectionOnly env).notices =
        [.error "Self-Healing Assistant: No fixed code received from AI"] ∧
      (fixCode selectionOnly env).editApplied = none ∧
      (fixCode selectionOnly env).finalText = env.docAtApply.text) ∧
    ∀ r s, (fixCode selectionOnly env).editApplied = some (r, s) →
      resp.fixedCode = some s ∧ s ≠ "" := by
  have hsend : sendCodeToAI env.config
      { code := code, language := editor.document.languageId,
        filename := editor.document.fileName,
        problems := getProblemsForFile env.diagnostics } env.http =
      (.ok resp, some { code := code, language := editor.document.languageId,
                        filename := editor.document.fileName,
                        problems := getProblemsForFile env.diagnostics }) := by
    rw [hhttp, sendCodeToAI_configured _ _ _ _ hurl hu]
  rw [fixCode_eq_body selectionOnly env editor code range hed hlang hcr]
  constructor
  · intro hfalsy
    rw [fixCodeBody_invalid env editor.document code range resp _ hne hsend hfalsy]
    exact ⟨rfl, rfl, rfl⟩
  · intro r s h
    by_cases hf : jsFalsyStr resp.fixedCode = true
    · rw [fixCodeBody_invalid env editor.document code range resp _ hne hsend hf] at h
      cases h
    · have hf2 : jsFalsyStr resp.fixedCode = false := by simpa using hf
      rw [fixCodeBody_valid env editor.document code range resp _ hne hsend hf2] at h
      have hjs : jsStr resp.fixedCode = s := by
        by_cases hd : env.config.showDiffPreview.getD true = true
        · rw [if_pos hd] at h
          rcases showDiffAndApply_shape code (jsStr resp.fixedCode)
              resp.explanation range env.firstChoice env.secondChoice with
            hd2 | hd2 | hd2 | hd2 | hd2 <;> rw [hd2] at h
          · exact (Prod.mk.injEq _ _ _ _ ▸ Option.some.inj h).2
          · exact (Prod.mk.injEq _ _ _ _ ▸ Option.some.inj h).2
          · cases h
          · cases h
          · cases h
        · rw [if_neg hd] at h
          exact (Prod.mk.injEq _ _ _ _ ▸ Option.some.inj h).2
      rw [← hjs]
      exact jsFalsyStr_false resp.fixedCode hf2

/-- Witness for C4 at a concrete response with no `fixedCode` field. -/
theorem C4_invalid_response_no_edit_witness :
    (fixCode true { sampleEnv with http := .success ⟨none, some "nothing", none⟩ }).notices =
      [.error "Self-Healing Assistant: No fixed code received from AI"] ∧
    (fixCode true { sampleEnv with http := .success ⟨none, some "nothing", none⟩ }).editApplied =
      none := by
  have h := (C4_invalid_response_no_edit true
    { sampleEnv with http := .success ⟨none, some "nothing", none⟩ }
    ⟨sampleDoc, ⟨⟨0, 0⟩, ⟨0, 14⟩⟩⟩ "cosnole.log(1)" ⟨⟨0, 0⟩, ⟨0, 14⟩⟩
    ⟨none, some "nothing", none⟩ "http://localhost:5678/webhook"
    rfl (by decide) (by decide) (by decide) rfl (by decide) rfl).1 (by decide)
  exact ⟨h.1, h.2.1⟩

/-- C1: a selection-only invocation with a non-empty selection, a
supported language, an endpoint configured and diff preview disabled:
the request payload carries exactly the selection text as `code` and the
document's language identifier as `language`; when the response carries
a (non-empty) `fixedCode` and an explanation, the selected range is
replaced by `fixedCode` and a success notice containing the explanation
text is shown. -/
theorem C1_selection_flow_applies_fix (env : Env) (editor : Editor)
    (resp : CodeFixResponse) (url fixed expl : String)
    (hed : env.editor = some editor)
    (hsel : editor.selection.isEmpty = false)
    (hlang : isSupportedLanguage editor.document.languageId = true)
    (hne : jsTrim (editor.document.getTextIn editor.selection) ≠ "")
    (hurl : env.config.n8nWebhookUrl = some url) (hu : url ≠ "")
    (hdiff : env.config.showDiffPreview = some false)
    (hhttp : env.http = .success resp)
    (hfix : resp.fixedCode = some fixed) (hfne : fixed ≠ "")
    (hexp : resp.explanation = some expl) :
    (fixCode true env).request = some
      { code := editor.document.getTextIn editor.selection,
        language := editor.document.languageId,
        filename := editor.document.fileName,
        problems := getProblemsForFile env.diagnostics } ∧
    (fixCode true env).editApplied = some (editor.selection, fixed) ∧
    (fixCode true env).finalText =
      env.docAtApply.replaceRange editor.selection fixed ∧
    ∃ m, (fixCode true env).notices = [Notice.info m] ∧ includesStr m expl := by
  have hcr : computeCodeAndRange true editor =
      some (editor.document.getTextIn editor.selection, editor.selection) := by
    simp [computeCodeAndRange, hsel]
  have hfalse : jsFalsyStr resp.fixedCode = false := by
    rw [hfix]
    simp [jsFalsyStr, hfne]
  have hsend : sendCodeToAI env.config
      { code := editor.document.getTextIn editor.selection,
        language := editor.document.languageId,
        filename := editor.document.fileName,
        problems := getProblemsForFile env.diagnostics } env.http =
      (.ok resp, some { code := editor.document.getTextIn editor.selection,
                        language := editor.document.languageId,
                        filename := editor.document.fileName,
                        problems := getProblemsForFile env.diagnostics }) := by
    rw [hhttp, sendCodeToAI_configured _ _ _ _ hurl hu]
  rw [fixCode_eq_body true env editor _ _ hed hlang hcr,
    fixCodeBody_valid env editor.document _ _ resp _ hne hsend hfalse,
    if_neg (by rw [hdiff]; simp)]
  refine ⟨rfl, ?_, ?_, ?_⟩
  · rw [hfix]
    rfl
  · rw [hfix]
    rfl
  · refine ⟨"âœ… Code fixed successfully! " ++ expl, ?_,
      "âœ… Code fixed successfully! ", "", by rw [String.append_empty]⟩
    rw [hexp]
    rfl

/-- Witness for C1 at the spec's scenario: selection
`cosnole.log(1)`, response `console.log(1)` with explanation
`fixed typo`. -/
theorem C1_selection_flow_applies_fix_witness :
    (fixCode true sampleEnv).request = some
      { code := "cosnole.log(1)", language := "javascript",
        filename := "test.js",
        problems := ["Line 1: cosnole is not defined (Error)"] } ∧
    (fixCode true sampleEnv).editApplied =
      some (⟨⟨0, 0⟩, ⟨0, 14⟩⟩, "console.log(1)") ∧
    (fixCode true sampleEnv).finalText = "console.log(1)" ∧
    ∃ m, (fixCode true sampleEnv).notices = [Notice.info m] ∧
      includesStr m "fixed typo" := by
  have h := C1_selection_flow_applies_fix sampleEnv
    ⟨sampleDoc, ⟨⟨0, 0⟩, ⟨0, 14⟩⟩⟩ sampleResp
    "http://localhost:5678/webhook" "console.log(1)" "fixed typo"
    rfl (by decide) (by decide) (by decide) rfl (by decide) rfl rfl rfl
    (by decide) rfl
  refine ⟨h.1, h.2.1, ?_, h.2.2.2⟩
  rw [h.2.2.1]
  decide

/-- C8: with diff preview enabled, when the user selects Cancel at the
first prompt the flow ends in the cancelled terminal state with no
mutation: no edit, document text unchanged, and the cancellation
information notice shown. -/
theorem C8_cancel_first_prompt_no_mutation (selectionOnly : Bool) (env : Env)
    (editor : Editor) (code : String) (range : Range) (resp : CodeFixResponse)
    (url : String)
    (hed : env.editor = some editor)
    (hlang : isSupportedLanguage editor.document.languageId = true)
    (hcr : computeCodeAndRange selectionOnly editor = some (code, range))
    (hne : jsTrim code ≠ "")
    (hurl : env.config.n8nWebhookUrl = some url) (hu : url ≠ "")
    (hhttp : env.http = .success resp)
    (hfix : jsFalsyStr resp.fixedCode = false)
    (hdiff : env.config.showDiffPreview.getD true = true)
    (hfirst : env.firstChoice = some .cancel) :
    (fixCode selectionOnly env).editApplied = none ∧
    (fixCode selectionOnly env).finalText = env.docAtApply.text ∧
    (fixCode selectionOnly env).notices = [.info "Code fix cancelled."] := by
  have hsend : sendCodeToAI env.config
      { code := code, language := editor.document.languageId,
        filename := editor.document.fileName,
        problems := getProblemsForFile env.diagnostics } env.http =
      (.ok resp, some { code := code, language := editor.document.languageId,
                        filename := editor.document.fileName,
                        problems := getProblemsForFile env.diagnostics }) := by
    rw [hhttp, sendCodeToAI_configured _ _ _ _ hurl hu]
  have hsd : showDiffAndApply code (jsStr resp.fixedCode) resp.explanation
      range env.firstChoice env.secondChoice =
      ([.info "Code fix cancelled."], none, false) := by
    unfold showDiffAndApply
    rw [hfirst]
  rw [fixCode_eq_body selectionOnly env editor code range hed hlang hcr,
    fixCodeBody_valid env editor.document code range resp _ hne hsend hfix,
    if_pos hdiff, hsd]
  exact ⟨rfl, rfl, rfl⟩

/-- Witness for C8 at a concrete whole-file invocation with diff preview
on and Cancel chosen. -/
theorem C8_cancel_first_prompt_no_mutation_witness :
    (fixCode false { sampleEnv with
        config := ⟨some "http://localhost:5678/webhook", none, none, some true⟩,
        firstChoice := some .cancel }).editApplied = none ∧
    (fixCode false { sampleEnv with
        config := ⟨some "http://localhost:5678/webhook", none, none, some true⟩,
        firstChoice := some .cancel }).notices =
      [.info "Code fix cancelled."] := by
  have h := C8_cancel_first_prompt_no_mutation false
    { sampleEnv with
      config := ⟨some "http://localhost:5678/webhook", none, none, some true⟩,
      firstChoice := some .cancel }
    ⟨sampleDoc, ⟨⟨0, 0⟩, ⟨0, 14⟩⟩⟩ sampleDoc.text
    ⟨⟨0, 0⟩, ⟨sampleDoc.lineCount, 0⟩⟩ sampleResp "http://localhost:5678/webhook"
    rfl (by decide) rfl (by decide) rfl (by decide) rfl (by decide) rfl rfl
  exact ⟨h.1, h.2.2⟩

/-- C10: when the first modal prompt is dismissed with no choice, no
edit is applied, no notice of any kind is shown, and the flow ends with
the document unchanged; in the post-diff prompt, dismissal likewise
shows no notice, and every outcome other than an explicit Apply choice
leaves the document unchanged. -/
theorem C10_dismissed_prompts_no_mutation (selectionOnly : Bool) (env : Env)
    (editor : Editor) (code : String) (range : Range) (resp : CodeFixResponse)
    (url : String)
    (hed : env.editor = some editor)
    (hlang : isSupportedLanguage editor.document.languageId = true)
    (hcr : computeCodeAndRange selectionOnly editor = some (code, range))
    (hne : jsTrim code ≠ "")
    (hurl : env.config.n8nWebhookUrl = some url) (hu : url ≠ "")
    (hhttp : env.http = .success resp)
    (hfix : jsFalsyStr resp.fixedCode = false)
    (hdiff : env.config.showDiffPreview.getD true = true) :
    (env.firstChoice = none →
      (fixCode selectionOnly env).notices = [] ∧
      (fixCode selectionOnly env).editApplied = none ∧
      (fixCode selectionOnly env).finalText = env.docAtApply.text) ∧
    (env.firstChoice = some .showDiff →
      (env.secondChoice = none →
        (fixCode selectionOnly env).notices = [] ∧
        (fixCode selectionOnly env).editApplied = none ∧
        (fixCode selectionOnly env).finalText = env.docAtApply.text) ∧
      (env.secondChoice ≠ some .apply →
        (fixCode selectionOnly env).editApplied = none ∧
        (fixCode selectionOnly env).finalText = env.docAtApply.text)) := by
  have hsend : sendCodeToAI env.config
      { code := code, language := editor.document.languageId,
        filename := editor.document.fileName,
        problems := getProblemsForFile env.diagnostics } env.http =
      (.ok resp, some { code := code, language := editor.document.languageId,
                        filename := editor.document.fileName,
                        problems := getProblemsForFile env.diagnostics }) := by
    rw [hhttp, sendCodeToAI_configured _ _ _ _ hurl hu]
  have hbody := fixCodeBody_valid env editor.document code range resp _ hne hsend hfix
  have hmain := fixCode_eq_body selectionOnly env editor code range hed hlang hcr
  constructor
  · intro h1
    have hsd : showDiffAndApply code (jsStr resp.fixedCode) resp.explanation
        range env.firstChoice env.secondChoice = ([], none, false) := by
      unfold showDiffAndApply
      rw [h1]
    rw [hmain, hbody, if_pos hdiff, hsd]
    exact ⟨rfl, rfl, rfl⟩
  · intro h1
    constructor
    · intro h2
      have hsd : showDiffAndApply code (jsStr resp.fixedCode) resp.explanation
          range env.firstChoice env.secondChoice = ([], none, true) := by
        unfold showDiffAndApply
        rw [h1, h2]
      rw [hmain, hbody, if_pos hdiff, hsd]
      exact ⟨rfl, rfl, rfl⟩
    · intro h2
      rcases hsc : env.secondChoice with _ | c2
      · have hsd : showDiffAndApply code (jsStr resp.fixedCode) resp.explanation
            range env.firstChoice env.secondChoice = ([], none, true) := by
          unfold showDiffAndApply
          rw [h1, hsc]
        rw [hmain, hbody, if_pos hdiff, hsd]
        exact ⟨rfl, rfl⟩
      · cases c2 with
        | apply => exact absurd hsc h2
        | cancel =>
          have hsd : showDiffAndApply code (jsStr resp.fixedCode) resp.explanation
              range env.firstChoice env.secondChoice = ([], none, true) := by
            unfold showDiffAndApply
            rw [h1, hsc]
          rw [hmain, hbody, if_pos hdiff, hsd]
          exact ⟨rfl, rfl⟩

/-- Witness for C10 at a concrete invocation with diff preview on and
the first prompt dismissed. -/
theorem C10_dismissed_prompts_no_mutation_witness :
    (fixCode true { sampleEnv with
        config := ⟨some "http://localhost:5678/webhook", none, none, none⟩,
        firstChoice := none }).notices = [] ∧
    (fixCode true { sampleEnv with
        config := ⟨some "http://localhost:5678/webhook", none, none, none⟩,
        firstChoice := none }).editApplied = none := by
  have h := (C10_dismissed_prompts_no_mutation true
    { sampleEnv with
      config := ⟨some "http://localhost:5678/webhook", none, none, none⟩,
      firstChoice := none }
    ⟨sampleDoc, ⟨⟨0, 0⟩, ⟨0, 14⟩⟩⟩ "cosnole.log(1)" ⟨⟨0, 0⟩, ⟨0, 14⟩⟩
    sampleResp "http://localhost:5678/webhook"
    rfl (by decide) rfl (by decide) rfl (by decide) rfl (by decide) rfl).1 rfl
  exact ⟨h.1, h.2.1⟩

/-- C7 (amended): every applied edit replaces exactly the range computed
at invocation start — the selection for selection scope, the range from
(0,0) to (lineCount, 0) spanning the whole document for whole-file
scope — and the replacement happens in the document as it stands at
apply time; the range is not re-validated against concurrent changes. -/
theorem C7_amended_replaces_computed_range (selectionOnly : Bool) (env : Env)
    (r : Range) (s : String)
    (h : (fixCode selectionOnly env).editApplied = some (r, s)) :
    (∃ editor, env.editor = some editor ∧
      ((selectionOnly = true ∧ editor.selection.isEmpty = false ∧
        r = editor.selection) ∨
       (selectionOnly = false ∧
        r = ⟨⟨0, 0⟩, ⟨editor.document.lineCount, 0⟩⟩))) ∧
    (fixCode selectionOnly env).finalText = env.docAtApply.replaceRange r s := by
  rcases hed : env.editor with _ | editor
  · have hfc : fixCode selectionOnly env =
        { notices := [.error "No active editor found. Please open a file first."],
          request := none, editApplied := none, diffShown := false,
          finalText := env.docAtApply.text } := by
      unfold fixCode
      rw [hed]
    rw [hfc] at h
    cases h
  · by_cases hlang : isSupportedLanguage editor.document.languageId = true
    · rcases hcr : computeCodeAndRange selectionOnly editor with _ | ⟨code, range⟩
      · have hfc : fixCode selectionOnly env =
            { notices := [.error "No code selected. Select code first or use \"Fix Entire File\"."],
              request := none, editApplied := none, diffShown := false,
              finalText := env.docAtApply.text } := by
          unfold fixCode
          rw [hed]
          simp only [hlang, Bool.not_true, Bool.false_eq_true, if_false, hcr]
        rw [hfc] at h
        cases h
      · rw [fixCode_eq_body selectionOnly env editor code range hed hlang hcr] at h ⊢
        obtain ⟨hr, hft⟩ := fixCodeBody_edit_range env editor.document code range r s h
        subst hr
        refine ⟨⟨editor, rfl, ?_⟩, hft⟩
        simp only [computeCodeAndRange] at hcr
        cases hb : selectionOnly && !(editor.selection.isEmpty) with
        | true =>
          rw [if_pos hb] at hcr
          obtain ⟨hsel, hnsel⟩ := Bool.and_eq_true _ _ |>.mp hb
          refine Or.inl ⟨hsel, ?_, ?_⟩
          · cases he : editor.selection.isEmpty
            · rfl
            · rw [he] at hnsel
              cases hnsel
          · exact ((Prod.mk.injEq _ _ _ _ ▸ Option.some.inj hcr).2).symm
        | false =>
          rw [if_neg (by rw [hb]; exact Bool.false_ne_true)] at hcr
          cases hso : selectionOnly with
          | false =>
            rw [hso] at hcr
            simp only [Bool.not_false, if_true] at hcr
            refine Or.inr ⟨rfl, ?_⟩
            exact ((Prod.mk.injEq _ _ _ _ ▸ Option.some.inj hcr).2).symm
          | true =>
            rw [hso] at hcr
            simp only [Bool.not_true, Bool.false_eq_true, if_false] at hcr
            cases hcr
    · have hl2 : isSupportedLanguage editor.document.languageId = false := by
        simpa using hlang
      have hfc : (fixCode selectionOnly env).editApplied = none := by
        unfold fixCode
        rw [hed]
        simp only [hl2, Bool.not_false, if_true]
      rw [hfc] at h
      cases h

/-- Witness for C7 (amended) at the concrete selection-scope success
flow. -/
theorem C7_amended_replaces_computed_range_witness :
    (∃ editor, sampleEnv.editor = some editor ∧
      ((true = true ∧ editor.selection.isEmpty = false ∧
        Range.mk ⟨0, 0⟩ ⟨0, 14⟩ = editor.selection) ∨
       (true = false ∧
        Range.mk ⟨0, 0⟩ ⟨0, 14⟩ = ⟨⟨0, 0⟩, ⟨editor.document.lineCount, 0⟩⟩))) ∧
    (fixCode true sampleEnv).finalText =
      sampleEnv.docAtApply.replaceRange ⟨⟨0, 0⟩, ⟨0, 14⟩⟩ "console.log(1)" :=
  C7_amended_replaces_computed_range true sampleEnv ⟨⟨0, 0⟩, ⟨0, 14⟩⟩
    "console.log(1)" (by decide)

/-- The environment of the C7 counterexample: during the network wait
another edit inserted a header line above the selected code, so the
document at apply time differs from the document the range was computed
against. -/
def c7EnvChangedDoc : Env :=
  { sampleEnv with
    docAtApply := ⟨"javascript", "test.js", ["// header line", "cosnole.log(1)"]⟩ }

/-- Counterexample for C7 as stated: the document changed between
issuing the request and receiving the response, yet the edit is still
applied at the originally computed — now stale — range: the region it
replaces in the changed document holds the inserted header line, not the
originally selected code, and the fix lands on the wrong text. -/
theorem C7_counterexample_stale_range_applied :
    c7EnvChangedDoc.docAtApply ≠ sampleDoc ∧
    (fixCode true c7EnvChangedDoc).editApplied =
      some (⟨⟨0, 0⟩, ⟨0, 14⟩⟩, "console.log(1)") ∧
    sampleDoc.getTextIn ⟨⟨0, 0⟩, ⟨0, 14⟩⟩ = "cosnole.log(1)" ∧
    c7EnvChangedDoc.docAtApply.getTextIn ⟨⟨0, 0⟩, ⟨0, 14⟩⟩ = "// header line" ∧
    (fixCode true c7EnvChangedDoc).finalText =
      "console.log(1)\ncosnole.log(1)" := by
  decide

end SelfHealing
